import Mathlib

/-!  Shallow embedding of the `vpMbKltTracker` model-based KLT tracker
(`src/unnamed/part_001`, ViSP).  C++ doubles are modelled as rationals.
The external collaborators (the KLT point tracker, the per-face geometry,
the internals of the robust M-estimator, the linear solver and the
exponential map) are abstracted as parameters; the tracker's own control
and data flow is translated statement by statement.  A few face-level
helpers (`hasEnoughPoints`, `removeOutliers`, the visibility hysteresis of
`setVisible`) belong to this repository but are not among the provided
source files; those are modelled from the specification and say so in
their doc comments. -/

namespace MbKlt

/-- Truncation toward zero of a rational: the semantics of the C cast
`(int)` applied to a double in the convergence test of `computeVVS`. -/
def truncToInt (q : ℚ) : ℤ :=
  q.num.sign * ((q.num.natAbs / q.den : ℕ) : ℤ)

/-- One polygonal face as the tracker code reads and writes it: the
tracked flag, the stored visibility, the current correspondence
identifiers and their count `nbPointsCur`. -/
structure Face where
  isTracked : Bool
  isVisible : Bool
  nbPointsCur : ℕ
  points : List ℕ
deriving DecidableEq

/-- Modelled from the spec: `vpMbtKltPolygon::hasEnoughPoints` is not
among the provided source files; per the spec a face is usable while it
has at least a minimum correspondence count, e.g. at least 4 points. -/
def Face.hasEnoughPoints (f : Face) : Bool :=
  decide (4 ≤ f.nbPointsCur)

/-- The guard `faces[i]->getIsTracked() && faces[i]->hasEnoughPoints()`
used by `preTracking`, `computeVVS` and `postTracking`. -/
def eligible (f : Face) : Bool :=
  f.isTracked && f.hasEnoughPoints

/-- Errors surfaced by `track` and `init` (`vpTrackingException` and
`vpException` in the source). -/
inductive VpError where
  | notEnoughPoint
  | modelNotInitialised
  | cameraNotInitialised
deriving DecidableEq

/-- External collaborators of the tracker, abstracted: pose composition,
inverse and identity on rigid transforms; the exponential map
`vpExponentialMap::direct`; the Tukey M-estimator `vpRobust::MEstimator`
(arguments: iteration index, threshold, residual vector, previous weight
vector); the per-face `computeHomography` and
`computeInteractionMatrixAndResidu` pair, producing one residual entry and
one six-entry Jacobian row per row index of the face's block; and the
normal-equation solve `v = -lambda * (JtJ)^+ * JtR`. -/
structure ExtOps (P : Type) where
  comp : P → P → P
  inv : P → P
  ident : P
  expDirect : List ℚ → P
  mEstimator : ℕ → ℚ → List ℚ → List ℚ → List ℚ
  computeIR : P → ℕ → Face → ℕ → ℚ × List ℚ
  solve : ℚ → List (List ℚ) → List ℚ → List ℚ

/-- The fields of `vpMbKltTracker` (and of its base `vpMbTracker`) that
the translated member functions read or write. -/
structure TrackerState (P : Type) where
  cMo : P
  c0Mo : P
  ctTc0 : P
  faces : List Face
  compute_interaction : Bool
  angleAppears : ℚ
  angleDisappears : ℚ
  maskBorder : ℕ
  threshold_outlier : ℚ
  lambda : ℚ
  maxIter : ℕ
  modelInitialised : Bool
  cameraInitialised : Bool
  px : ℚ
deriving DecidableEq

variable {P : Type}

/-- The `vpMbKltTracker` constructor (`src/unnamed/part_001`, lines
43-68): poses default to the identity (`vpHomogeneousMatrix` default
constructor), `compute_interaction = true`,
`angleAppears = angleDisappears = vpMath::rad(90)` (angles are kept in
one fixed angular unit throughout the model, making the `rad` conversion
the identity of that unit choice), `maskBorder = 10`,
`threshold_outlier = 0.5`, `lambda = 0.8`, `maxIter = 200`.  The calls
configuring the external KLT tracker are outside the model; `faces` and
`px` stand for the model and camera loaded by other members. -/
def vpMbKltTracker_ctor (ops : ExtOps P) (faces : List Face) (px : ℚ) : TrackerState P :=
  { cMo := ops.ident, c0Mo := ops.ident, ctTc0 := ops.ident, faces := faces,
    compute_interaction := true, angleAppears := 90, angleDisappears := 90,
    maskBorder := 10, threshold_outlier := 1/2, lambda := 4/5, maxIter := 200,
    modelInitialised := false, cameraInitialised := false, px := px }

/-- `vpMbKltTracker::setPose` (lines 169-172): assigns the current pose
field and nothing else. -/
def setPose (s : TrackerState P) (p : P) : TrackerState P :=
  { s with cMo := p }

/-- `vpMbtKltPolygon::computeNbDetectedCurrent` queries the external KLT
tracker: `newPts i` is the list of correspondence identifiers the tracker
still reports for face `i` in the current frame. -/
def preTrackFace (newPts : ℕ → List ℕ) (i : ℕ) (f : Face) : Face :=
  if f.isTracked then { f with points := newPts i, nbPointsCur := (newPts i).length } else f

/-- `vpMbKltTracker::preTracking` (lines 204-223): refresh every tracked
face's correspondences from the external tracker, then count the total
correspondences (`nbInfos`) and the usable faces (`nbFaceUsed`) over the
faces that are tracked and have enough points. -/
def preTracking (newPts : ℕ → List ℕ) (s : TrackerState P) : TrackerState P × ℕ × ℕ :=
  let faces := s.faces.enum.map (fun p => preTrackFace newPts p.1 p.2)
  let nbInfos := (faces.map (fun f => if eligible f then f.nbPointsCur else 0)).sum
  let nbFaceUsed := (faces.filter eligible).length
  ({ s with faces := faces }, nbInfos, nbFaceUsed)

/-- Rows contributed by face `i` in one `computeVVS` iteration: the
`vpSubColVector` and `vpSubMatrix` views written by the face have exactly
`2 * nbPointsCur` rows. -/
def faceRows (ops : ExtOps P) (ct : P) (i : ℕ) (f : Face) : List (ℚ × List ℚ) :=
  (List.range (2 * f.nbPointsCur)).map (ops.computeIR ct i f)

/-- The per-iteration assembly loop of `computeVVS` (lines 275-290): the
faces with `isTracked && hasEnoughPoints`, in index order, each write
their residual and interaction-matrix block at the running shift. -/
def assemble (ops : ExtOps P) (ct : P) (faces : List Face) : List (ℚ × List ℚ) :=
  (faces.enum.filter (fun p => eligible p.2)).flatMap (fun p => faceRows ops ct p.1 p.2)

/-- Pad a list to length `n` with `x`: `R` and `J` are allocated with
`2*nbInfos` zero-initialised rows before the loop, and rows beyond the
assembled blocks keep their zeros. -/
def padTo (n : ℕ) (x : α) (l : List α) : List α :=
  l ++ List.replicate (n - l.length) x

/-- `R[i] *= w[i]` over all rows (lines 303-306). -/
def weightVec (w : List ℚ) (r : List ℚ) : List ℚ :=
  (r.zip w).map (fun p => p.1 * p.2)

/-- `J[i][j] *= w[i]` over all rows and columns (lines 309-313). -/
def weightRows (w : List ℚ) (j : List (List ℚ)) : List (List ℚ) :=
  (j.zip w).map (fun p => p.1.map (fun x => x * p.2))

/-- The residual vector of one `computeVVS` iteration: `R` is allocated
with `2*nbInfos` zero rows before the loop, and each eligible face writes
its block of `2*nbPointsCur` entries at the running shift, from the
current incremental pose `ct`. -/
def vvsRAsm (ops : ExtOps P) (s : TrackerState P) (nbInfos : ℕ) (ct : P) : List ℚ :=
  padTo (2 * nbInfos) 0 ((assemble ops ct s.faces).map Prod.fst)

/-- The interaction matrix of one `computeVVS` iteration, assembled the
same way as the residual. -/
def vvsJAsm (ops : ExtOps P) (s : TrackerState P) (nbInfos : ℕ) (ct : P) : List (List ℚ) :=
  padTo (2 * nbInfos) (List.replicate 6 0) ((assemble ops ct s.faces).map Prod.snd)

/-- The weight vector entering the M-estimator: reset to `2*nbInfos` ones
on iteration 0 (`w.resize; w = 1;`), otherwise the previous iteration's
weights. -/
def vvsWIn (nbInfos iter : ℕ) (w : List ℚ) : List ℚ :=
  if iter = 0 then List.replicate (2 * nbInfos) 1 else w

/-- Ghost record of one pass of the `computeVVS` while-loop, observing
every intermediate value the body computes. -/
structure VVSIter (P : Type) where
  idx : ℕ
  poseBefore : P
  rAsm : List ℚ
  jAsm : List (List ℚ)
  wIn : List ℚ
  w : List ℚ
  rW : List ℚ
  normRes : ℚ
  normRes_1 : ℚ
  jUsed : List (List ℚ)
  v : List ℚ
  poseAfter : P
deriving DecidableEq

/-- The loop variables of `computeVVS`, plus the ghost trace. -/
structure VVSState (P : Type) where
  ctTc0 : P
  w : List ℚ
  normRes : ℚ
  normRes_1 : ℚ
  iter : ℕ
  trace : List (VVSIter P)
deriving DecidableEq

/-- The values computed by one pass of the `computeVVS` while-loop body
(lines 275-322): assemble the residual and interaction matrix from the
current incremental pose, run the M-estimator (the weight vector is reset
to ones on iteration 0), weight the residual and accumulate its signed
sum into `normRes` (`normRes_1` keeps the previous sum), weight the
Jacobian rows when `iter == 0 || compute_interaction`, solve for the
6-vector increment, and compose its exponential's inverse on the left of
`ctTc0`. -/
def mkEntry (ops : ExtOps P) (s : TrackerState P) (nbInfos : ℕ) (st : VVSState P) : VVSIter P :=
  let rAsm := vvsRAsm ops s nbInfos st.ctTc0
  let jAsm := vvsJAsm ops s nbInfos st.ctTc0
  let wIn := vvsWIn nbInfos st.iter st.w
  let w := ops.mEstimator st.iter (2 / s.px) rAsm wIn
  let rW := weightVec w rAsm
  let jUsed := if st.iter = 0 || s.compute_interaction then weightRows w jAsm else jAsm
  let v := ops.solve s.lambda jUsed rW
  ⟨st.iter, st.ctTc0, rAsm, jAsm, wIn, w, rW, rW.sum, st.normRes, jUsed, v,
    ops.comp (ops.inv (ops.expDirect v)) st.ctTc0⟩

/-- One pass of the `computeVVS` while-loop body: update the loop
variables with the values of `mkEntry` and append the ghost record. -/
def vvsBody (ops : ExtOps P) (s : TrackerState P) (nbInfos : ℕ) (st : VVSState P) : VVSState P :=
  let e := mkEntry ops s nbInfos st
  { ctTc0 := e.poseAfter, w := e.w, normRes := e.normRes, normRes_1 := st.normRes,
    iter := st.iter + 1, trace := st.trace ++ [e] }

/-- The while-condition of `computeVVS` (line 273):
`( (int)((normRes - normRes_1)*1e8) != 0 ) && (iter < maxIter)`. -/
def vvsCond (normRes normRes_1 : ℚ) (iter maxIter : ℕ) : Bool :=
  decide (truncToInt ((normRes - normRes_1) * 100000000) ≠ 0) && decide (iter < maxIter)

/-- The `computeVVS` while-loop; `fuel` dominates `maxIter - iter`, so the
recursion is structural while the loop exit is decided by `vvsCond`
exactly as in the source. -/
def vvsLoop (ops : ExtOps P) (s : TrackerState P) (nbInfos : ℕ) : ℕ → VVSState P → VVSState P
  | 0, st => st
  | fuel + 1, st =>
    if vvsCond st.normRes st.normRes_1 st.iter s.maxIter then
      vvsLoop ops s nbInfos fuel (vvsBody ops s nbInfos st)
    else st

/-- The initial loop variables of `computeVVS` (lines 266-270):
`normRes = 0`, `normRes_1 = -1`, `iter = 0`, `ctTc0` from the state. -/
def vvsInit (ct0 : P) : VVSState P :=
  { ctTc0 := ct0, w := [], normRes := 0, normRes_1 := -1, iter := 0, trace := [] }

/-- The loop of `computeVVS` run from its initial values; the fuel
`maxIter + 1` exceeds the iterations the condition `iter < maxIter` can
admit from `iter = 0`, so the loop always exits through `vvsCond`. -/
def computeVVSAux (ops : ExtOps P) (s : TrackerState P) (nbInfos : ℕ) : VVSState P :=
  vvsLoop ops s nbInfos (s.maxIter + 1) (vvsInit s.ctTc0)

/-- `vpMbKltTracker::computeVVS` (lines 255-326): run the refinement loop,
store the refined incremental pose and set `cMo = ctTc0 * c0Mo`; also
returns the final weight vector (the reference parameter `w`). -/
def computeVVS (ops : ExtOps P) (s : TrackerState P) (nbInfos : ℕ) : TrackerState P × List ℚ :=
  let fin := computeVVSAux ops s nbInfos
  ({ s with ctTc0 := fin.ctTc0, cMo := ops.comp fin.ctTc0 s.c0Mo }, fin.w)

/-- Modelled from the spec: `vpMbtKltPolygon::removeOutliers` is not among
the provided source files.  Per the spec, given the final per-point
weights of the last optimisation, the points whose weight falls below the
fixed threshold are permanently dropped from the face's correspondence
set; `wt` is the per-point-identifier view of the stacked weight vector
(the source's `vpSubColVector` slice handed to each face). -/
def removeOutliers (wt : ℕ → ℚ) (thr : ℚ) (f : Face) : Face :=
  let kept := f.points.filter (fun pid => decide (¬ wt pid < thr))
  { f with points := kept, nbPointsCur := kept.length }

/-- Modelled from the spec: the per-face visibility update inside
`vpMbtKltPolygons::setVisible` is not among the provided source files.
Hysteresis: a face that is not visible becomes visible when its angle
drops below `angleAppears`; a visible face becomes occluded only when its
angle exceeds `angleDisappears`. -/
def visStep (angleAppears angleDisappears angle : ℚ) (vis : Bool) : Bool :=
  if vis then decide (¬ angleDisappears < angle) else decide (angle < angleAppears)

/-- `vpMbKltTracker::postTracking` (lines 228-247): remove outliers from
every eligible face using its slice of the weight vector and
`threshold_outlier`, then update every face's visibility at the new pose
(`angles i` is the abstract normal-to-viewing-direction angle of face `i`
at the current pose).  Modelled from the spec: `setVisible` flags
re-initialisation when some face transitions from invisible-or-untracked
to visible. -/
def postTracking (wt : ℕ → ℚ) (angles : ℕ → ℚ) (s : TrackerState P) : TrackerState P × Bool :=
  let faces1 := s.faces.map (fun f => if eligible f then removeOutliers wt s.threshold_outlier f else f)
  let faces2 := faces1.enum.map (fun p =>
    { p.2 with isVisible := visStep s.angleAppears s.angleDisappears (angles p.1) p.2.isVisible })
  let reInitialisation := faces1.enum.any (fun p =>
    visStep s.angleAppears s.angleDisappears (angles p.1) p.2.isVisible
      && !(p.2.isVisible && p.2.isTracked))
  ({ s with faces := faces2 }, reInitialisation)

/-- `vpMbKltTracker::init` (lines 82-147).  `vis i pose angle` abstracts
`faces[i]->isVisible(pose, angle)`; `roiInside i pose` abstracts the
projected-polygon test `vpMbtKltPolygon::roiInsideImage`; `fresh i`
abstracts the fresh correspondences `faces[i]->init(iPI0, roi)` assigns
from the re-initialised KLT tracker's features.  Returns the new state
together with the list of face indices stamped into the initialisation
mask. -/
def init (ops : ExtOps P) (vis : ℕ → P → ℚ → Bool) (roiInside : ℕ → P → Bool)
    (fresh : ℕ → List ℕ) (s : TrackerState P) : Except VpError (TrackerState P × List ℕ) :=
  if !s.modelInitialised then .error .modelNotInitialised
  else if !s.cameraInitialised then .error .cameraNotInitialised
  else
    let c0Mo := s.cMo
    let mask := (List.range s.faces.length).filter (fun i => vis i c0Mo s.angleAppears)
    let faces := s.faces.enum.map (fun p =>
      if vis p.1 c0Mo s.angleAppears then
        if roiInside p.1 c0Mo then
          { p.2 with points := fresh p.1, nbPointsCur := (fresh p.1).length, isTracked := true }
        else { p.2 with isTracked := false }
      else { p.2 with isTracked := false })
    .ok ({ s with c0Mo := c0Mo, ctTc0 := ops.ident, faces := faces }, mask)

/-- `vpMbKltTracker::track` (lines 335-353).  The result carries the state
of the tracker object when `track` returns or throws (`some` error is the
C++ exception).  `wt` turns the stacked weight vector from `computeVVS`
into the per-point weight view consumed by outlier removal (spec-modelled,
see `removeOutliers`); `angleAt`, `vis`, `roiInside`, `fresh` and `newPts`
are the abstract per-face geometric inputs. -/
def track (ops : ExtOps P) (newPts : ℕ → List ℕ) (wt : List ℚ → ℕ → ℚ)
    (angleAt : P → ℕ → ℚ) (vis : ℕ → P → ℚ → Bool) (roiInside : ℕ → P → Bool)
    (fresh : ℕ → List ℕ) (s : TrackerState P) : TrackerState P × Option VpError :=
  let pre := preTracking newPts s
  if pre.2.1 < 4 ∨ pre.2.2 = 0 then (pre.1, some VpError.notEnoughPoint)
  else
    let cv := computeVVS ops pre.1 pre.2.1
    let post := postTracking (wt cv.2) (angleAt cv.1.cMo) cv.1
    if post.2 then
      match init ops vis roiInside fresh post.1 with
      | .error e => (post.1, some e)
      | .ok r => (r.1, none)
    else (post.1, none)

/-- Default face used by `List.getD` in index-wise statements. -/
def dFace : Face :=
  { isTracked := false, isVisible := false, nbPointsCur := 0, points := [] }

/-- The relations the `computeVVS` body establishes between the recorded
inputs and outputs of one iteration. -/
def entrySpec (ops : ExtOps P) (s : TrackerState P) (nbInfos : ℕ) (e : VVSIter P) : Prop :=
  e.rAsm = vvsRAsm ops s nbInfos e.poseBefore ∧
  e.jAsm = vvsJAsm ops s nbInfos e.poseBefore ∧
  e.w = ops.mEstimator e.idx (2 / s.px) e.rAsm e.wIn ∧
  e.rW = weightVec e.w e.rAsm ∧
  e.normRes = (weightVec e.w e.rAsm).sum ∧
  e.jUsed = (if e.idx = 0 || s.compute_interaction then weightRows e.w e.jAsm else e.jAsm) ∧
  e.v = ops.solve s.lambda e.jUsed e.rW ∧
  e.poseAfter = ops.comp (ops.inv (ops.expDirect e.v)) e.poseBefore

/-- The adjacency relations between two consecutive iterations of the
loop: the incremental pose, the iteration counter, the weight vector and
the residual norm are each threaded from one pass to the next. -/
def chainStep (a b : VVSIter P) : Prop :=
  b.poseBefore = a.poseAfter ∧ b.idx = a.idx + 1 ∧ b.wIn = a.w ∧ b.normRes_1 = a.normRes

/-- Full invariant tying the loop variables to the ghost trace. -/
def vvsInv (ops : ExtOps P) (s : TrackerState P) (nbInfos : ℕ) (ct0 : P) (st : VVSState P) : Prop :=
  st.iter = st.trace.length ∧
  st.iter ≤ s.maxIter ∧
  st.ctTc0 = st.trace.getLast?.elim ct0 VVSIter.poseAfter ∧
  st.w = st.trace.getLast?.elim [] VVSIter.w ∧
  st.normRes = st.trace.getLast?.elim 0 VVSIter.normRes ∧
  st.normRes_1 = st.trace.getLast?.elim (-1) VVSIter.normRes_1 ∧
  (∀ la ∈ st.trace.getLast?, la.idx + 1 = st.iter) ∧
  (∀ e ∈ st.trace, entrySpec ops s nbInfos e) ∧
  (∀ e ∈ st.trace.head?, e.poseBefore = ct0 ∧ e.idx = 0 ∧
    e.wIn = List.replicate (2 * nbInfos) 1 ∧ e.normRes_1 = 0) ∧
  List.Chain' chainStep st.trace

/-- Concrete instantiation of the abstract collaborators used by the
witnesses below: poses are integers under addition, the exponential map
is constantly `1`, the M-estimator returns the constant weight `1/2`,
every residual entry is `1` and every Jacobian row starts with the
current pose value, the solver returns the first basis twist. -/
def opsZ : ExtOps ℤ where
  comp := fun a b => a + b
  inv := fun a => -a
  ident := 0
  expDirect := fun _ => 1
  mEstimator := fun _ _ r _ => r.map (fun _ => (1:ℚ)/2)
  computeIR := fun p _ _ _ => (1, [(p : ℚ), 0, 0, 0, 0, 0])
  solve := fun _ _ _ => [1, 0, 0, 0, 0, 0]

/-- A tracked, visible face holding four correspondences. -/
def face0 : Face :=
  { isTracked := true, isVisible := true, nbPointsCur := 4, points := [0, 1, 2, 3] }

/-- A tracked face currently marked not visible. -/
def face1 : Face :=
  { isTracked := true, isVisible := false, nbPointsCur := 4, points := [0, 1, 2, 3] }

/-- A configured one-face tracker state with `compute_interaction`
cleared, so that the weighting schedule of the refinement loop is
observable past iteration 0. -/
def s0 : TrackerState ℤ :=
  { cMo := 7, c0Mo := 2, ctTc0 := 5, faces := [face0],
    compute_interaction := false, angleAppears := 90, angleDisappears := 90,
    maskBorder := 10, threshold_outlier := 1/2, lambda := 4/5, maxIter := 200,
    modelInitialised := true, cameraInitialised := true, px := 600 }

/-- `s0` with no faces at all: `preTracking` reports no data. -/
def sNoFace : TrackerState ℤ :=
  { s0 with faces := [] }

/-- `s0` with the invisible face `face1`: after a frame the face turns
visible, which flags re-initialisation. -/
def sReinit : TrackerState ℤ :=
  { s0 with faces := [face1] }

/-- The external tracker keeps reporting the four identifiers. -/
def newPts4 : ℕ → List ℕ := fun _ => [0, 1, 2, 3]

/-- A weight view that keeps every point. -/
def wtOne : List ℚ → ℕ → ℚ := fun _ _ => 1

/-- Every face at angle `0` to the viewing direction. -/
def angle0 : ℤ → ℕ → ℚ := fun _ _ => 0

/-- Every face visible, every projection inside the image, two fresh
correspondences per face. -/
def visT : ℕ → ℤ → ℚ → Bool := fun _ _ _ => true

/-- See `visT`. -/
def roiT : ℕ → ℤ → Bool := fun _ _ => true

/-- See `visT`. -/
def fresh2 : ℕ → List ℕ := fun _ => [5, 6]

/-- The recorded first pass of the loop of `computeVVS opsZ s0 4`. -/
def e0 : VVSIter ℤ :=
  ⟨0, 5, List.replicate 8 1, List.replicate 8 [5,0,0,0,0,0], List.replicate 8 1,
    List.replicate 8 (1/2), List.replicate 8 (1/2), 4, 0,
    List.replicate 8 [5/2,0,0,0,0,0], [1,0,0,0,0,0], 4⟩

/-- The recorded second pass of the loop of `computeVVS opsZ s0 4`. -/
def e1 : VVSIter ℤ :=
  ⟨1, 4, List.replicate 8 1, List.replicate 8 [4,0,0,0,0,0], List.replicate 8 (1/2),
    List.replicate 8 (1/2), List.replicate 8 (1/2), 4, 4,
    List.replicate 8 [4,0,0,0,0,0], [1,0,0,0,0,0], 3⟩


/-- `s0` with the model flagged unconfigured. -/
def sNoCfg : TrackerState ℤ := { s0 with modelInitialised := false }

/-- A per-point weight map keeping every point. -/
def wtConst : ℕ → ℚ := fun _ => 1

/-- Every face at angle 0. -/
def angConst : ℕ → ℚ := fun _ => 0

/-- The refinement outcome on the re-initialisation instance. -/
def cvR : TrackerState ℤ × List ℚ :=
  computeVVS opsZ (preTracking newPts4 sReinit).1 (preTracking newPts4 sReinit).2.1

/-- The post-tracking outcome on the re-initialisation instance. -/
def postR : TrackerState ℤ × Bool :=
  postTracking (wtOne cvR.2) (angle0 cvR.1.cMo) cvR.1

lemma vvsLoop_zero (ops : ExtOps P) (s : TrackerState P) (nbInfos : ℕ) (st : VVSState P) :
    vvsLoop ops s nbInfos 0 st = st := rfl

lemma vvsLoop_succ (ops : ExtOps P) (s : TrackerState P) (nbInfos fuel : ℕ) (st : VVSState P) :
    vvsLoop ops s nbInfos (fuel + 1) st =
      if vvsCond st.normRes st.normRes_1 st.iter s.maxIter then
        vvsLoop ops s nbInfos fuel (vvsBody ops s nbInfos st)
      else st := rfl

/-- Any property preserved by the loop body (under the loop condition) is
an invariant of `vvsLoop`. -/
lemma vvsLoop_pres (ops : ExtOps P) (s : TrackerState P) (nbInfos : ℕ)
    (Q : VVSState P → Prop)
    (hbody : ∀ st, vvsCond st.normRes st.normRes_1 st.iter s.maxIter = true →
      Q st → Q (vvsBody ops s nbInfos st)) :
    ∀ fuel st, Q st → Q (vvsLoop ops s nbInfos fuel st) := by
  intro fuel
  induction fuel with
  | zero => intro st h; exact h
  | succ n ih =>
    intro st h
    rw [vvsLoop_succ]
    by_cases hc : vvsCond st.normRes st.normRes_1 st.iter s.maxIter = true
    · rw [if_pos hc]; exact ih _ (hbody st hc h)
    · rw [if_neg hc]; exact h

/-- With enough fuel, the loop can only stop because `vvsCond` is false:
either the convergence test held or `iter` reached `maxIter`. -/
lemma vvsLoop_exitCond (ops : ExtOps P) (s : TrackerState P) (nbInfos : ℕ) :
    ∀ fuel st, s.maxIter < st.iter + fuel →
      vvsCond (vvsLoop ops s nbInfos fuel st).normRes (vvsLoop ops s nbInfos fuel st).normRes_1
        (vvsLoop ops s nbInfos fuel st).iter s.maxIter = false := by
  intro fuel
  induction fuel with
  | zero =>
    intro st h
    rw [vvsLoop_zero]
    have : ¬ st.iter < s.maxIter := by omega
    simp [vvsCond, this]
  | succ n ih =>
    intro st h
    rw [vvsLoop_succ]
    by_cases hc : vvsCond st.normRes st.normRes_1 st.iter s.maxIter = true
    · rw [if_pos hc]
      refine ih _ ?_
      have : (vvsBody ops s nbInfos st).iter = st.iter + 1 := rfl
      omega
    · rw [if_neg hc]
      exact Bool.not_eq_true _ |>.mp hc

lemma mkEntry_entrySpec (ops : ExtOps P) (s : TrackerState P) (nbInfos : ℕ) (st : VVSState P) :
    entrySpec ops s nbInfos (mkEntry ops s nbInfos st) :=
  ⟨rfl, rfl, rfl, rfl, rfl, rfl, rfl, rfl⟩

lemma vvsBody_inv (ops : ExtOps P) (s : TrackerState P) (nbInfos : ℕ) (ct0 : P) (st : VVSState P)
    (hc : vvsCond st.normRes st.normRes_1 st.iter s.maxIter = true)
    (h : vvsInv ops s nbInfos ct0 st) : vvsInv ops s nbInfos ct0 (vvsBody ops s nbInfos st) := by
  obtain ⟨h1, h2, h3, h4, h5, h6, h7, h8, h9, h10⟩ := h
  have hiter : st.iter < s.maxIter := by
    simp only [vvsCond, Bool.and_eq_true, decide_eq_true_eq] at hc
    exact hc.2
  have hb : vvsBody ops s nbInfos st =
      { ctTc0 := (mkEntry ops s nbInfos st).poseAfter, w := (mkEntry ops s nbInfos st).w,
        normRes := (mkEntry ops s nbInfos st).normRes, normRes_1 := st.normRes,
        iter := st.iter + 1, trace := st.trace ++ [mkEntry ops s nbInfos st] } := rfl
  rw [hb]
  refine ⟨?_, ?_, ?_, ?_, ?_, ?_, ?_, ?_, ?_, ?_⟩
  · simp [h1]
  · show st.iter + 1 ≤ s.maxIter
    omega
  · simp [List.getLast?_concat]
  · simp [List.getLast?_concat]
  · simp [List.getLast?_concat]
  · simp only [List.getLast?_concat, Option.elim_some]
    rfl
  · intro la hla
    simp only [List.getLast?_concat, Option.mem_def, Option.some_inj] at hla
    subst hla
    rfl
  · intro e he
    rcases List.mem_append.mp he with h' | h'
    · exact h8 e h'
    · rcases List.mem_singleton.mp h' with rfl
      exact mkEntry_entrySpec ops s nbInfos st
  · cases htr : st.trace with
    | nil =>
      intro e he
      rw [htr] at h1 h3 h5
      simp only [htr, List.nil_append, List.head?_cons, Option.mem_def, Option.some_inj] at he
      subst he
      refine ⟨?_, ?_, ?_, ?_⟩
      · simpa using h3
      · simpa using h1
      · show vvsWIn nbInfos st.iter st.w = _
        have h0 : st.iter = 0 := by simpa using h1
        simp [vvsWIn, h0]
      · show st.normRes = 0
        simpa using h5
    | cons a t =>
      intro e he
      rw [htr] at h9
      simp only [htr, List.cons_append, List.head?_cons, Option.mem_def, Option.some_inj] at he
      subst he
      exact h9 _ rfl
  · rw [List.chain'_append]
    refine ⟨h10, List.chain'_singleton _, ?_⟩
    intro x hx y hy
    simp only [List.head?_cons, Option.mem_def, Option.some_inj] at hy
    subst hy
    rw [Option.mem_def] at hx
    rw [hx] at h3 h4 h5
    simp only [Option.elim_some] at h3 h4 h5
    have hne : st.iter ≠ 0 := by
      have : st.trace ≠ [] := by
        intro hnil
        rw [hnil] at hx
        simp at hx
      have : 0 < st.trace.length := List.length_pos.mpr this
      omega
    refine ⟨?_, ?_, ?_, ?_⟩
    · show st.ctTc0 = x.poseAfter
      exact h3
    · show st.iter = x.idx + 1
      exact (h7 x (Option.mem_def.mpr hx)).symm
    · show vvsWIn nbInfos st.iter st.w = x.w
      simp [vvsWIn, hne, h4]
    · show st.normRes = x.normRes
      exact h5

lemma computeVVSAux_inv (ops : ExtOps P) (s : TrackerState P) (nbInfos : ℕ) :
    vvsInv ops s nbInfos s.ctTc0 (computeVVSAux ops s nbInfos) := by
  refine vvsLoop_pres ops s nbInfos _
    (fun st hc h => vvsBody_inv ops s nbInfos s.ctTc0 st hc h) _ _ ?_
  exact ⟨rfl, Nat.zero_le _, rfl, rfl, rfl, rfl, by simp [vvsInit], by simp [vvsInit],
    by simp [vvsInit], by simp [vvsInit]⟩

lemma abs_lt_one_iff (q : ℚ) : |q| < 1 ↔ q.num.natAbs < q.den := by
  conv_lhs => rw [← Rat.num_div_den q]
  have hden : (0:ℚ) < (q.den : ℚ) := by exact_mod_cast q.pos
  rw [abs_div, abs_of_pos hden, div_lt_one hden]
  have h1 : |(q.num : ℚ)| = ((q.num.natAbs : ℤ) : ℚ) := by
    rw [← Int.cast_abs, Int.abs_eq_natAbs]
  rw [h1]
  exact_mod_cast Iff.rfl

/-- The C cast in the convergence test truncates to zero exactly on the
open unit interval. -/
lemma truncToInt_eq_zero_iff (q : ℚ) : truncToInt q = 0 ↔ |q| < 1 := by
  rw [abs_lt_one_iff]
  unfold truncToInt
  rw [Int.mul_eq_zero]
  constructor
  · rintro (h | h)
    · have h0 : q.num = 0 := Int.sign_eq_zero_iff_zero.mp h
      simpa [h0] using q.pos
    · have h0 : q.num.natAbs / q.den = 0 := by exact_mod_cast h
      exact (Nat.div_eq_zero_iff q.pos).mp h0
  · intro h
    right
    have h0 : q.num.natAbs / q.den = 0 := Nat.div_eq_of_lt h
    exact_mod_cast h0

/-- The while-condition, unfolded: the loop keeps running exactly while
the two successive signed weighted-residual sums differ by at least
`1e-8` in absolute value and the iteration cap is not reached. -/
lemma vvsCond_iff (a b : ℚ) (i m : ℕ) :
    vvsCond a b i m = true ↔ ((1 : ℚ)/100000000 ≤ |a - b| ∧ i < m) := by
  rw [vvsCond, Bool.and_eq_true, decide_eq_true_eq, decide_eq_true_eq]
  have h : truncToInt ((a - b) * 100000000) ≠ 0 ↔ (1 : ℚ)/100000000 ≤ |a - b| := by
    rw [Ne, truncToInt_eq_zero_iff, not_lt, abs_mul]
    constructor
    · intro h'
      have habs : |(100000000 : ℚ)| = 100000000 := by norm_num
      rw [habs] at h'
      linarith [h']
    · intro h'
      have habs : |(100000000 : ℚ)| = 100000000 := by norm_num
      rw [habs]
      linarith [h']
  rw [h]

lemma enumFrom_filter_map_snd {α : Type} (p : α → Bool) :
    ∀ (n : ℕ) (l : List α), ((List.enumFrom n l).filter (fun q => p q.2)).map Prod.snd = l.filter p := by
  intro n l
  induction l generalizing n with
  | nil => simp
  | cons a t ih =>
    by_cases h : p a <;> simp [List.enumFrom, List.filter, h, ih]

lemma sum_map_ite {α : Type} (p : α → Bool) (g : α → ℕ) (l : List α) :
    (l.map (fun a => if p a then g a else 0)).sum = ((l.filter p).map g).sum := by
  induction l with
  | nil => rfl
  | cons a t ih =>
    by_cases h : p a <;> simp [List.filter, h, ih]

lemma sum_map_two_mul {α : Type} (g : α → ℕ) (l : List α) :
    (l.map (fun a => 2 * g a)).sum = 2 * (l.map g).sum := by
  induction l with
  | nil => rfl
  | cons a t ih => simp [ih, Nat.mul_add]

/-- Every face block has exactly `2 * nbPointsCur` rows. -/
lemma faceRows_length (ops : ExtOps P) (ct : P) (i : ℕ) (f : Face) :
    (faceRows ops ct i f).length = 2 * f.nbPointsCur := by
  simp [faceRows]

/-- The assembled system has twice as many rows as the eligible faces
hold correspondences. -/
lemma assemble_length (ops : ExtOps P) (ct : P) (faces : List Face) :
    (assemble ops ct faces).length = 2 * ((faces.filter eligible).map Face.nbPointsCur).sum := by
  rw [assemble, List.length_flatMap]
  have h1 : (List.map (List.length ∘ fun p => faceRows ops ct p.1 p.2)
      (faces.enum.filter fun p => eligible p.2)).sum
      = (List.map (fun p => 2 * (Prod.snd p).nbPointsCur)
      (faces.enum.filter fun p => eligible p.2)).sum := by
    congr 1
    apply List.map_congr_left
    intro q hq
    simp [faceRows]
  rw [h1]
  have h2 : (List.map (fun p => 2 * (Prod.snd p).nbPointsCur)
      (faces.enum.filter fun p => eligible p.2)).sum
      = (List.map (fun f => 2 * f.nbPointsCur)
      ((faces.enum.filter fun p => eligible p.2).map Prod.snd)).sum := by
    rw [List.map_map]
    rfl
  rw [h2, List.enum, enumFrom_filter_map_snd, sum_map_two_mul]

lemma padTo_eq_self {α : Type} (n : ℕ) (x : α) (l : List α) (h : l.length = n) :
    padTo n x l = l := by
  simp [padTo, h]

lemma padTo_length {α : Type} (n : ℕ) (x : α) (l : List α) :
    (padTo n x l).length = max n l.length := by
  simp [padTo]
  omega

/-- `preTracking` reports as `nbInfos` the total correspondence count of
the eligible faces. -/
lemma preTracking_nbInfos (newPts : ℕ → List ℕ) (s : TrackerState P) :
    (preTracking newPts s).2.1 =
      (((preTracking newPts s).1.faces.filter eligible).map Face.nbPointsCur).sum := by
  show ((s.faces.enum.map (fun p => preTrackFace newPts p.1 p.2)).map
      (fun f => if eligible f then f.nbPointsCur else 0)).sum = _
  rw [sum_map_ite]
  rfl

/-- `preTracking` does not change any face's tracked flag. -/
lemma preTracking_isTracked (newPts : ℕ → List ℕ) (s : TrackerState P) :
    (preTracking newPts s).1.faces.map Face.isTracked = s.faces.map Face.isTracked := by
  show (s.faces.enum.map (fun p => preTrackFace newPts p.1 p.2)).map Face.isTracked = _
  rw [List.map_map, List.enum]
  have h : ∀ n (l : List Face),
      ((List.enumFrom n l).map (Face.isTracked ∘ fun p => preTrackFace newPts p.1 p.2)) = l.map Face.isTracked := by
    intro n l
    induction l generalizing n with
    | nil => rfl
    | cons a t ih =>
      have ha : (preTrackFace newPts n a).isTracked = a.isTracked := by
        by_cases htr : a.isTracked <;> simp [preTrackFace, htr]
      simp [List.enumFrom, ih, Function.comp, ha]
  exact h 0 s.faces

lemma hc0 : vvsCond 0 (-1) 0 200 = true := by norm_num [vvsCond, truncToInt]
lemma hc1 : vvsCond 4 0 1 200 = true := by norm_num [vvsCond, truncToInt]
lemma hc2 : vvsCond 4 4 2 200 = false := by norm_num [vvsCond, truncToInt]

lemma body1 : vvsBody opsZ s0 4
    { ctTc0 := 5, w := [], normRes := 0, normRes_1 := -1, iter := 0, trace := [] } =
    { ctTc0 := 4, w := List.replicate 8 (1/2), normRes := 4, normRes_1 := 0, iter := 1, trace := [e0] } := by
  simp [vvsBody, mkEntry, vvsInit, vvsRAsm, vvsJAsm, vvsWIn, assemble, faceRows, padTo,
    weightVec, weightRows, opsZ, s0, face0, eligible, Face.hasEnoughPoints, List.range_succ,
    List.enum, e0]
  norm_num [List.replicate]

lemma body2 : vvsBody opsZ s0 4
    { ctTc0 := 4, w := List.replicate 8 (1/2), normRes := 4, normRes_1 := 0, iter := 1, trace := [e0] } =
    { ctTc0 := 3, w := List.replicate 8 (1/2), normRes := 4, normRes_1 := 4, iter := 2, trace := [e0, e1] } := by
  simp [vvsBody, mkEntry, vvsRAsm, vvsJAsm, vvsWIn, assemble, faceRows, padTo,
    weightVec, weightRows, opsZ, s0, face0, eligible, Face.hasEnoughPoints, List.range_succ,
    List.enum, e0, e1]
  norm_num [List.replicate]

/-- The refinement loop on the concrete instance stops after two passes,
recording exactly `e0` and `e1`. -/
lemma auxEval : computeVVSAux opsZ s0 4 =
    { ctTc0 := 3, w := List.replicate 8 (1/2), normRes := 4, normRes_1 := 4, iter := 2, trace := [e0, e1] } := by
  have hm : s0.maxIter = 200 := rfl
  have hct : s0.ctTc0 = (5 : ℤ) := rfl
  rw [computeVVSAux, hm, hct]
  rw [vvsLoop_succ]
  simp only [vvsInit, hm, hc0, if_true]
  rw [body1]
  rw [show (200 : ℕ) = 199 + 1 from rfl, vvsLoop_succ]
  simp only [hm, hc1, if_true]
  rw [body2]
  rw [show (199 : ℕ) = 198 + 1 from rfl, vvsLoop_succ]
  simp only [hm, hc2, Bool.false_eq_true, reduceIte]

/-- C1: if after pre-tracking the total number of tracked correspondences
across all faces (`nbInfos`) is below 4, or no face is both tracked and
holding enough points (`nbFaceUsed = 0`), `track` throws the
not-enough-data tracking error without running the refinement, and the
stored poses `cMo`, `c0Mo` and `ctTc0` hold exactly the values they had
before the call. -/
theorem track_insufficient_data (ops : ExtOps P) (newPts : ℕ → List ℕ) (wt : List ℚ → ℕ → ℚ)
    (angleAt : P → ℕ → ℚ) (vis : ℕ → P → ℚ → Bool) (roiInside : ℕ → P → Bool)
    (fresh : ℕ → List ℕ) (s : TrackerState P)
    (h : (preTracking newPts s).2.1 < 4 ∨ (preTracking newPts s).2.2 = 0) :
    track ops newPts wt angleAt vis roiInside fresh s
      = ((preTracking newPts s).1, some VpError.notEnoughPoint) ∧
    (preTracking newPts s).1.cMo = s.cMo ∧
    (preTracking newPts s).1.c0Mo = s.c0Mo ∧
    (preTracking newPts s).1.ctTc0 = s.ctTc0 := by
  refine ⟨?_, rfl, rfl, rfl⟩
  unfold track
  rw [if_pos h]

/-- C1, concrete run: a tracker with no faces reports no data and fails
with the pre-tracking state's poses untouched. -/
theorem track_insufficient_data_witness :
    ((preTracking newPts4 sNoFace).2.1 < 4 ∨ (preTracking newPts4 sNoFace).2.2 = 0) ∧
    (track opsZ newPts4 wtOne angle0 visT roiT fresh2 sNoFace
       = ((preTracking newPts4 sNoFace).1, some VpError.notEnoughPoint) ∧
     (preTracking newPts4 sNoFace).1.cMo = sNoFace.cMo ∧
     (preTracking newPts4 sNoFace).1.c0Mo = sNoFace.c0Mo ∧
     (preTracking newPts4 sNoFace).1.ctTc0 = sNoFace.ctTc0) :=
  ⟨by decide,
   track_insufficient_data opsZ newPts4 wtOne angle0 visT roiT fresh2 sNoFace (by decide)⟩

/-- C2: in every pass of the `computeVVS` loop the solved 6-vector `v` is
applied multiplicatively through the exponential map,
`ctTc0 ← (exp v)⁻¹ * ctTc0`, composed on the left of the previous
incremental pose (the passes chain from the stored `ctTc0`), and on exit
the returned pose is `cMo = ctTc0 * c0Mo`. -/
theorem computeVVS_exponential_composition (ops : ExtOps P) (s : TrackerState P) (nbInfos : ℕ) :
    (∀ e ∈ (computeVVSAux ops s nbInfos).trace,
       e.poseAfter = ops.comp (ops.inv (ops.expDirect e.v)) e.poseBefore ∧
       e.v = ops.solve s.lambda e.jUsed e.rW) ∧
    (∀ e ∈ (computeVVSAux ops s nbInfos).trace.head?, e.poseBefore = s.ctTc0) ∧
    List.Chain' (fun a b => b.poseBefore = a.poseAfter) (computeVVSAux ops s nbInfos).trace ∧
    (computeVVSAux ops s nbInfos).ctTc0
      = ((computeVVSAux ops s nbInfos).trace.getLast?).elim s.ctTc0 VVSIter.poseAfter ∧
    (computeVVS ops s nbInfos).1.cMo = ops.comp (computeVVSAux ops s nbInfos).ctTc0 s.c0Mo := by
  obtain ⟨h1, h2, h3, h4, h5, h6, h7, h8, h9, h10⟩ := computeVVSAux_inv ops s nbInfos
  refine ⟨?_, ?_, ?_, h3, rfl⟩
  · intro e he
    obtain ⟨-, -, -, -, -, -, hv, hp⟩ := h8 e he
    exact ⟨hp, hv⟩
  · intro e he
    exact (h9 e he).1
  · exact List.Chain'.imp (fun a b hab => hab.1) h10

/-- C2, concrete run: the first recorded pass of the loop on the concrete
instance composes the exponential of the solved increment on the left. -/
theorem computeVVS_exponential_composition_witness :
    e0 ∈ (computeVVSAux opsZ s0 4).trace ∧
    (e0.poseAfter = opsZ.comp (opsZ.inv (opsZ.expDirect e0.v)) e0.poseBefore ∧
     e0.v = opsZ.solve s0.lambda e0.jUsed e0.rW) :=
  ⟨by rw [auxEval]; simp,
   (computeVVS_exponential_composition opsZ s0 4).1 e0 (by rw [auxEval]; simp)⟩

/-- C3: the `computeVVS` loop terminates after at most `maxIter`
iterations: the iteration counter and the recorded trace never exceed
`maxIter`, the loop exits only with the while-condition false (the
convergence delta truncated to zero, or the cap reached), and the cap set
by the constructor is 200. -/
theorem computeVVS_iteration_bound (ops : ExtOps P) (s : TrackerState P) (nbInfos : ℕ) :
    (computeVVSAux ops s nbInfos).iter ≤ s.maxIter ∧
    (computeVVSAux ops s nbInfos).trace.length ≤ s.maxIter ∧
    vvsCond (computeVVSAux ops s nbInfos).normRes (computeVVSAux ops s nbInfos).normRes_1
      (computeVVSAux ops s nbInfos).iter s.maxIter = false ∧
    (∀ faces px, (vpMbKltTracker_ctor ops faces px).maxIter = 200) := by
  obtain ⟨h1, h2, -⟩ := computeVVSAux_inv ops s nbInfos
  refine ⟨h2, h1 ▸ h2, ?_, fun _ _ => rfl⟩
  unfold computeVVSAux
  exact vvsLoop_exitCond ops s nbInfos (s.maxIter + 1) (vvsInit s.ctTc0) (by simp [vvsInit])

/-- C4: a face contributes rows to the residual system exactly when it is
tracked and has enough points (`eligible`), and its block is exactly
`2 * nbPointsCur` rows: `preTracking` counts `nbInfos` as the total
correspondences over the eligible faces and `nbFaceUsed` as their number,
touching no tracked flag; in every pass of the refinement loop started
from the pre-tracking data the assembled residual and interaction matrix
consist of exactly the eligible faces' blocks, `2 * nbInfos` rows with no
padding; and `computeVVS` leaves the faces unchanged. -/
theorem residual_rows_iff_eligible (ops : ExtOps P) (newPts : ℕ → List ℕ) (s : TrackerState P) :
    (preTracking newPts s).2.1
      = (((preTracking newPts s).1.faces.filter eligible).map Face.nbPointsCur).sum ∧
    (preTracking newPts s).2.2 = ((preTracking newPts s).1.faces.filter eligible).length ∧
    (preTracking newPts s).1.faces.map Face.isTracked = s.faces.map Face.isTracked ∧
    (∀ (ct : P) (i : ℕ) (f : Face), (faceRows ops ct i f).length = 2 * f.nbPointsCur) ∧
    (∀ (ct : P) (faces : List Face), (assemble ops ct faces).length
        = 2 * ((faces.filter eligible).map Face.nbPointsCur).sum) ∧
    (computeVVS ops (preTracking newPts s).1 (preTracking newPts s).2.1).1.faces
      = (preTracking newPts s).1.faces ∧
    (∀ e ∈ (computeVVSAux ops (preTracking newPts s).1 (preTracking newPts s).2.1).trace,
       e.rAsm = (assemble ops e.poseBefore (preTracking newPts s).1.faces).map Prod.fst ∧
       e.rAsm.length = 2 * (preTracking newPts s).2.1 ∧
       e.jAsm = (assemble ops e.poseBefore (preTracking newPts s).1.faces).map Prod.snd ∧
       e.jAsm.length = 2 * (preTracking newPts s).2.1) := by
  have hsum := preTracking_nbInfos newPts s
  refine ⟨hsum, rfl, preTracking_isTracked newPts s,
    fun ct i f => faceRows_length ops ct i f,
    fun ct faces => assemble_length ops ct faces, rfl, ?_⟩
  intro e he
  obtain ⟨-, -, -, -, -, -, -, hsp, -, -⟩ :=
    computeVVSAux_inv ops (preTracking newPts s).1 (preTracking newPts s).2.1
  obtain ⟨hr, hj, -⟩ := hsp e he
  have hlenR : ((assemble ops e.poseBefore (preTracking newPts s).1.faces).map Prod.fst).length
      = 2 * (preTracking newPts s).2.1 := by
    rw [List.length_map, assemble_length, ← hsum]
  have hlenJ : ((assemble ops e.poseBefore (preTracking newPts s).1.faces).map Prod.snd).length
      = 2 * (preTracking newPts s).2.1 := by
    rw [List.length_map, assemble_length, ← hsum]
  have h1 : e.rAsm = (assemble ops e.poseBefore (preTracking newPts s).1.faces).map Prod.fst := by
    rw [hr, vvsRAsm, padTo_eq_self _ _ _ hlenR]
  have h2 : e.jAsm = (assemble ops e.poseBefore (preTracking newPts s).1.faces).map Prod.snd := by
    rw [hj, vvsJAsm, padTo_eq_self _ _ _ hlenJ]
  exact ⟨h1, by rw [h1, hlenR], h2, by rw [h2, hlenJ]⟩

/-- C4, concrete run: on the concrete instance the single eligible face
contributes its eight rows in the first recorded pass. -/
theorem residual_rows_iff_eligible_witness :
    e0 ∈ (computeVVSAux opsZ (preTracking newPts4 s0).1 (preTracking newPts4 s0).2.1).trace ∧
    (e0.rAsm = (assemble opsZ e0.poseBefore (preTracking newPts4 s0).1.faces).map Prod.fst ∧
     e0.rAsm.length = 2 * (preTracking newPts4 s0).2.1 ∧
     e0.jAsm = (assemble opsZ e0.poseBefore (preTracking newPts4 s0).1.faces).map Prod.snd ∧
     e0.jAsm.length = 2 * (preTracking newPts4 s0).2.1) := by
  have hpre : (preTracking newPts4 s0).1 = s0 := rfl
  have hn : (preTracking newPts4 s0).2.1 = 4 := rfl
  have hmem : e0 ∈ (computeVVSAux opsZ (preTracking newPts4 s0).1 (preTracking newPts4 s0).2.1).trace := by
    rw [hpre, hn, auxEval]
    simp
  exact ⟨hmem, (residual_rows_iff_eligible opsZ newPts4 s0).2.2.2.2.2.2 e0 hmem⟩

/-- C5 as stated fails on the code: the interaction matrix is rebuilt from
the current pose at every iteration — it is the multiplication of its rows
by the robust weights, not the rebuild, that is guarded by
`iter == 0 || compute_interaction`.  Concretely, with the flag cleared, at
the recorded pass 1 the matrix handed to the solver is the freshly rebuilt
`jAsm` of pass 1 (different from both matrices of pass 0, so nothing from
iteration 0 is reused), and its rows are not re-weighted even though the
weights are not 1. -/
theorem interaction_reweight_counterexample :
    (computeVVSAux opsZ s0 4).trace = [e0, e1] ∧
    s0.compute_interaction = false ∧
    e1.idx = 1 ∧
    e1.jUsed = e1.jAsm ∧
    e1.jUsed ≠ weightRows e1.w e1.jAsm ∧
    e1.jAsm ≠ e0.jAsm ∧
    e1.jUsed ≠ e0.jUsed ∧
    e1.jUsed ≠ e0.jAsm := by
  refine ⟨by rw [auxEval], rfl, rfl, rfl, ?_, ?_, ?_, ?_⟩
  · intro h
    have := congrArg (fun l => l.headD ([] : List ℚ)) h
    simp [e1, weightRows, List.replicate] at this
    try norm_num at this
  · intro h
    have := congrArg (fun l => l.headD ([] : List ℚ)) h
    simp [e0, e1, List.replicate] at this
    try norm_num at this
  · intro h
    have := congrArg (fun l => l.headD ([] : List ℚ)) h
    simp [e0, e1, List.replicate] at this
    try norm_num at this
  · intro h
    have := congrArg (fun l => l.headD ([] : List ℚ)) h
    simp [e0, e1, List.replicate] at this
    try norm_num at this

/-- C5 amended: in every pass of the `computeVVS` loop the robust weights
are recomputed by the M-estimator and the interaction matrix and residual
are rebuilt from the current incremental pose; the multiplication of the
Jacobian rows by the weights is what happens only on iteration 0 or when
`compute_interaction` is set — on the other iterations the freshly
rebuilt, unweighted matrix is handed to the solver. -/
theorem interaction_reweight_schedule (ops : ExtOps P) (s : TrackerState P) (nbInfos : ℕ) :
    ∀ e ∈ (computeVVSAux ops s nbInfos).trace,
      e.w = ops.mEstimator e.idx (2 / s.px) e.rAsm e.wIn ∧
      e.rAsm = vvsRAsm ops s nbInfos e.poseBefore ∧
      e.jAsm = vvsJAsm ops s nbInfos e.poseBefore ∧
      e.jUsed = (if e.idx = 0 || s.compute_interaction then weightRows e.w e.jAsm else e.jAsm) ∧
      e.v = ops.solve s.lambda e.jUsed e.rW := by
  intro e he
  obtain ⟨-, -, -, -, -, -, -, hsp, -, -⟩ := computeVVSAux_inv ops s nbInfos
  obtain ⟨h1, h2, h3, h4, h5, h6, h7, h8⟩ := hsp e he
  exact ⟨h3, h1, h2, h6, h7⟩

/-- C5 amended, concrete run: at the recorded pass 1 with the flag
cleared, the solver receives the freshly rebuilt unweighted matrix. -/
theorem interaction_reweight_schedule_witness :
    e1 ∈ (computeVVSAux opsZ s0 4).trace ∧
    (e1.w = opsZ.mEstimator e1.idx (2 / s0.px) e1.rAsm e1.wIn ∧
     e1.rAsm = vvsRAsm opsZ s0 4 e1.poseBefore ∧
     e1.jAsm = vvsJAsm opsZ s0 4 e1.poseBefore ∧
     e1.jUsed = (if e1.idx = 0 || s0.compute_interaction then weightRows e1.w e1.jAsm else e1.jAsm) ∧
     e1.v = opsZ.solve s0.lambda e1.jUsed e1.rW) :=
  ⟨by rw [auxEval]; simp,
   interaction_reweight_schedule opsZ s0 4 e1 (by rw [auxEval]; simp)⟩

/-- `init` on a configured tracker, evaluated. -/
lemma init_ok (ops : ExtOps P) (vis : ℕ → P → ℚ → Bool) (roiInside : ℕ → P → Bool)
    (fresh : ℕ → List ℕ) (s : TrackerState P)
    (hm : s.modelInitialised = true) (hc : s.cameraInitialised = true) :
    init ops vis roiInside fresh s = .ok
      ({ s with
          c0Mo := s.cMo,
          ctTc0 := ops.ident,
          faces := s.faces.enum.map (fun p =>
            if vis p.1 s.cMo s.angleAppears then
              if roiInside p.1 s.cMo then
                { p.2 with points := fresh p.1, nbPointsCur := (fresh p.1).length, isTracked := true }
              else { p.2 with isTracked := false }
            else { p.2 with isTracked := false }) },
       (List.range s.faces.length).filter (fun i => vis i s.cMo s.angleAppears)) := by
  unfold init
  rw [hm, hc]
  simp

/-- C9: the quantity driving convergence is the signed sum of the
weighted residual entries — `normRes` is the sum of `w[i] * R[i]` with no
absolute value or squaring, each pass's `normRes_1` is the previous
pass's sum (the first pass compares against 0 after the `-1` start) —
and the while-condition, whose test casts `(normRes - normRes_1)*1e8` to
`int`, holds exactly while the two successive signed sums differ by at
least `1e-8` in absolute value and the cap is not reached: the loop exits
as soon as they differ by less, however large the residuals remain. -/
theorem convergence_signed_sum (ops : ExtOps P) (s : TrackerState P) (nbInfos : ℕ) :
    (∀ e ∈ (computeVVSAux ops s nbInfos).trace,
       e.normRes = (weightVec e.w e.rAsm).sum ∧ e.rW = weightVec e.w e.rAsm) ∧
    List.Chain' (fun a b => b.normRes_1 = a.normRes) (computeVVSAux ops s nbInfos).trace ∧
    (∀ e ∈ (computeVVSAux ops s nbInfos).trace.head?, e.normRes_1 = 0) ∧
    (∀ (a b : ℚ) (i m : ℕ), vvsCond a b i m = true ↔ ((1 : ℚ)/100000000 ≤ |a - b| ∧ i < m)) := by
  obtain ⟨h1, h2, h3, h4, h5, h6, h7, h8, h9, h10⟩ := computeVVSAux_inv ops s nbInfos
  refine ⟨?_, ?_, ?_, vvsCond_iff⟩
  · intro e he
    obtain ⟨-, -, -, hrW, hn, -⟩ := h8 e he
    exact ⟨hn, hrW⟩
  · exact List.Chain'.imp (fun a b hab => hab.2.2.2) h10
  · intro e he
    exact (h9 e he).2.2.2

/-- C9, concrete run: the first recorded pass's `normRes` is the signed
weighted sum, and the loop's condition test agrees with the `1e-8`
threshold reading. -/
theorem convergence_signed_sum_witness :
    e0 ∈ (computeVVSAux opsZ s0 4).trace ∧
    (e0.normRes = (weightVec e0.w e0.rAsm).sum ∧ e0.rW = weightVec e0.w e0.rAsm) ∧
    (vvsCond 4 4 2 200 = true ↔ ((1 : ℚ)/100000000 ≤ |(4 : ℚ) - 4| ∧ 2 < 200)) :=
  ⟨by rw [auxEval]; simp,
   (convergence_signed_sum opsZ s0 4).1 e0 (by rw [auxEval]; simp),
   (convergence_signed_sum opsZ s0 4).2.2.2 4 4 2 200⟩

/-- C10: `setPose` assigns only the current-pose field `cMo`, leaving
`c0Mo`, `ctTc0` and the faces unchanged; the next `computeVVS` run is
therefore identical whatever pose was set — it ends by overwriting `cMo`
with `ctTc0 * c0Mo`, a value independent of the externally set pose — and
the set pose only becomes the anchor if `init` runs before the next
refinement. -/
theorem setPose_overwritten_by_refinement (ops : ExtOps P) (s : TrackerState P) (p : P) :
    (setPose s p).cMo = p ∧
    (setPose s p).c0Mo = s.c0Mo ∧
    (setPose s p).ctTc0 = s.ctTc0 ∧
    (setPose s p).faces = s.faces ∧
    (∀ nbInfos, computeVVS ops (setPose s p) nbInfos = computeVVS ops s nbInfos) ∧
    (∀ nbInfos, (computeVVS ops (setPose s p) nbInfos).1.cMo
        = ops.comp (computeVVSAux ops s nbInfos).ctTc0 s.c0Mo) ∧
    (∀ (vis : ℕ → P → ℚ → Bool) (roiInside : ℕ → P → Bool) (fresh : ℕ → List ℕ),
       s.modelInitialised = true → s.cameraInitialised = true →
       ∀ r, init ops vis roiInside fresh (setPose s p) = .ok r → r.1.c0Mo = p) := by
  have hloop : ∀ n fuel st, vvsLoop ops (setPose s p) n fuel st = vvsLoop ops s n fuel st := by
    intro n fuel
    induction fuel with
    | zero => intro st; rfl
    | succ k ih =>
      intro st
      rw [vvsLoop_succ, vvsLoop_succ]
      have hm : (setPose s p).maxIter = s.maxIter := rfl
      rw [hm]
      by_cases hc : vvsCond st.normRes st.normRes_1 st.iter s.maxIter = true
      · rw [if_pos hc, if_pos hc]
        have hb : vvsBody ops (setPose s p) n st = vvsBody ops s n st := rfl
        rw [hb]
        exact ih _
      · rw [if_neg hc, if_neg hc]
  have haux : ∀ n, computeVVSAux ops (setPose s p) n = computeVVSAux ops s n := by
    intro n
    unfold computeVVSAux
    exact hloop n _ _
  have hvvs : ∀ n, computeVVS ops (setPose s p) n = computeVVS ops s n := by
    intro n
    unfold computeVVS
    rw [haux n]
    rfl
  refine ⟨rfl, rfl, rfl, rfl, hvvs, ?_, ?_⟩
  · intro n
    rw [hvvs n]
    rfl
  · intro vis roiInside fresh hm hc r hr
    have hm' : (setPose s p).modelInitialised = true := hm
    have hc' : (setPose s p).cameraInitialised = true := hc
    rw [init_ok ops vis roiInside fresh (setPose s p) hm' hc'] at hr
    injection hr with h'
    rw [← h']
    rfl

/-- C10, concrete run: after `setPose s0 9`, a successful `init` anchors
`c0Mo` at the externally set pose 9. -/
theorem setPose_overwritten_by_refinement_witness :
    s0.modelInitialised = true ∧ s0.cameraInitialised = true ∧
    (({ setPose s0 9 with
         c0Mo := (9 : ℤ),
         ctTc0 := 0,
         faces := [{ face0 with points := [5, 6], nbPointsCur := 2, isTracked := true }] },
      ([0] : List ℕ)) : TrackerState ℤ × List ℕ).1.c0Mo = 9 :=
  ⟨rfl, rfl,
   (setPose_overwritten_by_refinement opsZ s0 9).2.2.2.2.2.2 visT roiT fresh2 rfl rfl
     ({ setPose s0 9 with
         c0Mo := (9 : ℤ),
         ctTc0 := 0,
         faces := [{ face0 with points := [5, 6], nbPointsCur := 2, isTracked := true }] },
      ([0] : List ℕ)) rfl⟩

lemma getD_map_enum {β : Type} (g : ℕ × Face → β) (l : List Face) (i : ℕ)
    (h : i < l.length) (d : β) (d' : Face) :
    (l.enum.map g).getD i d = g (i, l.getD i d') := by
  rw [List.getD_eq_getElem _ _ (by simpa using h), List.getD_eq_getElem _ _ h]
  rw [List.getElem_map, List.getElem_enum]

lemma getD_map_face (g : Face → Face) (l : List Face) (i : ℕ)
    (h : i < l.length) (d d' : Face) :
    (l.map g).getD i d = g (l.getD i d') := by
  rw [List.getD_eq_getElem _ _ (by simpa using h), List.getD_eq_getElem _ _ h]
  rw [List.getElem_map]

/-- The face stored by `postTracking` at index `i`: outliers removed when
the face was eligible, then the hysteresis visibility update. -/
lemma postTracking_getD (wt : ℕ → ℚ) (angles : ℕ → ℚ) (s : TrackerState P) (i : ℕ)
    (h : i < s.faces.length) :
    (postTracking wt angles s).1.faces.getD i dFace =
      (fun f => { f with isVisible := visStep s.angleAppears s.angleDisappears (angles i) f.isVisible })
        (if eligible (s.faces.getD i dFace) then
          removeOutliers wt s.threshold_outlier (s.faces.getD i dFace)
         else s.faces.getD i dFace) := by
  show ((s.faces.map (fun f => if eligible f then removeOutliers wt s.threshold_outlier f else f)).enum.map
      (fun p => { p.2 with isVisible := visStep s.angleAppears s.angleDisappears (angles p.1) p.2.isVisible })).getD i dFace = _
  rw [getD_map_enum _ _ i (by simpa using h) dFace dFace]
  rw [getD_map_face _ _ i h dFace dFace]

lemma postR_flag : postR.2 = true := by
  show (postTracking (wtOne cvR.2) (angle0 cvR.1.cMo) cvR.1).2 = true
  simp only [postR, cvR, postTracking, computeVVS, preTracking, wtOne, angle0, sReinit, s0]
  norm_num [face1, preTrackFace, eligible, Face.hasEnoughPoints, removeOutliers, visStep,
    List.enum, List.enumFrom]
  left
  split <;> rfl

/-- C7: outlier removal permanently drops from a face exactly the points
whose final weight falls below the threshold (the constructor fixes
`threshold_outlier = 0.5`), replacing the point set and its count, and it
is idempotent: removing twice with the same weights retains the same
correspondence set as removing once; `postTracking` applies it to exactly
the faces that are tracked with enough points. -/
theorem outlier_removal_idempotent (ops : ExtOps P) :
    (∀ (faces : List Face) (px : ℚ), (vpMbKltTracker_ctor ops faces px).threshold_outlier = 1/2) ∧
    (∀ (wt : ℕ → ℚ) (thr : ℚ) (f : Face) (pid : ℕ),
       pid ∈ (removeOutliers wt thr f).points ↔ (pid ∈ f.points ∧ ¬ wt pid < thr)) ∧
    (∀ (wt : ℕ → ℚ) (thr : ℚ) (f : Face),
       (removeOutliers wt thr f).nbPointsCur = (removeOutliers wt thr f).points.length) ∧
    (∀ (wt : ℕ → ℚ) (thr : ℚ) (f : Face),
       removeOutliers wt thr (removeOutliers wt thr f) = removeOutliers wt thr f) ∧
    (∀ (wt : ℕ → ℚ) (angles : ℕ → ℚ) (s : TrackerState P) (i : ℕ), i < s.faces.length →
       (eligible (s.faces.getD i dFace) = true →
         ((postTracking wt angles s).1.faces.getD i dFace).points
           = (s.faces.getD i dFace).points.filter (fun pid => decide (¬ wt pid < s.threshold_outlier))) ∧
       (eligible (s.faces.getD i dFace) = false →
         ((postTracking wt angles s).1.faces.getD i dFace).points = (s.faces.getD i dFace).points)) := by
  refine ⟨fun _ _ => rfl, ?_, fun _ _ _ => rfl, ?_, ?_⟩
  · intro wt thr f pid
    simp [removeOutliers, List.mem_filter]
  · intro wt thr f
    simp [removeOutliers, List.filter_filter]
  · intro wt angles s i h
    rw [postTracking_getD wt angles s i h]
    constructor
    · intro he
      simp only [he, if_true]
      rfl
    · intro he
      simp only [he, Bool.false_eq_true, reduceIte]

/-- C8: the visibility update uses the two distinct thresholds
`angleAppears` (an invisible face becomes visible below it) and
`angleDisappears` (a visible face becomes occluded above it); the step is
idempotent whenever the angle sits at either boundary value — and at any
constant angle once `angleAppears ≤ angleDisappears` — so a face whose
angle stays at a boundary across consecutive frames cannot flip state
every frame.  `postTracking` applies exactly this step to every stored
visibility flag. -/
theorem visibility_hysteresis_no_flicker :
    (∀ (app dis angle : ℚ) (b : Bool), (angle = app ∨ angle = dis) →
       visStep app dis angle (visStep app dis angle b) = visStep app dis angle b) ∧
    (∀ (app dis angle : ℚ) (b : Bool), app ≤ dis →
       visStep app dis angle (visStep app dis angle b) = visStep app dis angle b) ∧
    (∀ (P : Type) (wt : ℕ → ℚ) (angles : ℕ → ℚ) (s : TrackerState P) (i : ℕ),
       i < s.faces.length →
       ((postTracking wt angles s).1.faces.getD i dFace).isVisible
         = visStep s.angleAppears s.angleDisappears (angles i) ((s.faces.getD i dFace).isVisible)) := by
  refine ⟨?_, ?_, ?_⟩
  · intro app dis angle b h
    rcases h with rfl | rfl
    · cases b
      · simp [visStep]
      · by_cases hd : dis < angle <;> simp [visStep, hd]
    · cases b
      · by_cases ha : angle < app <;> simp [visStep, ha]
      · simp [visStep]
  · intro app dis angle b hle
    by_cases h1 : angle < app
    · by_cases h2 : dis < angle
      · exact absurd (lt_trans h2 h1) (not_lt.mpr hle)
      · cases b <;> simp [visStep, h1, h2]
    · by_cases h2 : dis < angle
      · cases b <;> simp [visStep, h1, h2]
      · cases b <;> simp [visStep, h1, h2]
  · intro Q wt angles s i h
    rw [postTracking_getD wt angles s i h]
    by_cases he : eligible (s.faces.getD i dFace) = true
    · simp only [he, if_true]
      rfl
    · simp only [eq_false_of_ne_true he, Bool.false_eq_true, reduceIte]

/-- C6: `init` fails unless model and camera are configured; on success it
anchors `c0Mo` at the current pose `cMo`, resets `ctTc0` to the identity,
stamps exactly the currently-visible faces into the initialisation mask,
gives fresh correspondences precisely to the visible faces whose
projected polygon lies inside the image and marks every other face
untracked; and whenever `postTracking` signals re-initialisation, `track`
re-runs `init` on the current image and returns its outcome. -/
theorem reinit_reruns_init (ops : ExtOps P) (vis : ℕ → P → ℚ → Bool)
    (roiInside : ℕ → P → Bool) (fresh : ℕ → List ℕ) :
    (∀ s : TrackerState P, (s.modelInitialised = false ∨ s.cameraInitialised = false) →
       init ops vis roiInside fresh s
         = .error (if s.modelInitialised then .cameraNotInitialised else .modelNotInitialised)) ∧
    (∀ s : TrackerState P, s.modelInitialised = true → s.cameraInitialised = true →
       ∀ r, init ops vis roiInside fresh s = .ok r →
         r.1.c0Mo = s.cMo ∧ r.1.ctTc0 = ops.ident ∧ r.1.cMo = s.cMo ∧
         (∀ i, i ∈ r.2 ↔ (i < s.faces.length ∧ vis i s.cMo s.angleAppears = true)) ∧
         r.1.faces.length = s.faces.length ∧
         (∀ i, i < s.faces.length →
           ((vis i s.cMo s.angleAppears && roiInside i s.cMo) = true →
              (r.1.faces.getD i dFace).isTracked = true ∧
              (r.1.faces.getD i dFace).points = fresh i ∧
              (r.1.faces.getD i dFace).nbPointsCur = (fresh i).length) ∧
           ((vis i s.cMo s.angleAppears && roiInside i s.cMo) = false →
              (r.1.faces.getD i dFace).isTracked = false ∧
              (r.1.faces.getD i dFace).points = (s.faces.getD i dFace).points))) ∧
    (∀ (newPts : ℕ → List ℕ) (wt : List ℚ → ℕ → ℚ) (angleAt : P → ℕ → ℚ) (s : TrackerState P),
       ¬ ((preTracking newPts s).2.1 < 4 ∨ (preTracking newPts s).2.2 = 0) →
       (postTracking (wt (computeVVS ops (preTracking newPts s).1 (preTracking newPts s).2.1).2)
          (angleAt (computeVVS ops (preTracking newPts s).1 (preTracking newPts s).2.1).1.cMo)
          (computeVVS ops (preTracking newPts s).1 (preTracking newPts s).2.1).1).2 = true →
       track ops newPts wt angleAt vis roiInside fresh s =
         (match init ops vis roiInside fresh
             (postTracking (wt (computeVVS ops (preTracking newPts s).1 (preTracking newPts s).2.1).2)
               (angleAt (computeVVS ops (preTracking newPts s).1 (preTracking newPts s).2.1).1.cMo)
               (computeVVS ops (preTracking newPts s).1 (preTracking newPts s).2.1).1).1 with
          | .error e =>
            ((postTracking (wt (computeVVS ops (preTracking newPts s).1 (preTracking newPts s).2.1).2)
               (angleAt (computeVVS ops (preTracking newPts s).1 (preTracking newPts s).2.1).1.cMo)
               (computeVVS ops (preTracking newPts s).1 (preTracking newPts s).2.1).1).1, some e)
          | .ok r => (r.1, none))) := by
  refine ⟨?_, ?_, ?_⟩
  · intro s h
    cases hmod : s.modelInitialised <;> cases hcam : s.cameraInitialised <;>
      simp_all [init]
  · intro s hm hc r hr
    rw [init_ok ops vis roiInside fresh s hm hc] at hr
    injection hr with h'
    subst h'
    refine ⟨rfl, rfl, rfl, ?_, by simp, ?_⟩
    · intro i
      simp [List.mem_filter, List.mem_range]
    · intro i hi
      constructor
      · intro hvr
        obtain ⟨hv, hroi⟩ := Bool.and_eq_true .. ▸ hvr
        have hg : (({ s with
            c0Mo := s.cMo,
            ctTc0 := ops.ident,
            faces := s.faces.enum.map (fun p =>
              if vis p.1 s.cMo s.angleAppears then
                if roiInside p.1 s.cMo then
                  { p.2 with points := fresh p.1, nbPointsCur := (fresh p.1).length, isTracked := true }
                else { p.2 with isTracked := false }
              else { p.2 with isTracked := false }) },
          (List.range s.faces.length).filter (fun i => vis i s.cMo s.angleAppears)) :
            TrackerState P × List ℕ).1.faces.getD i dFace
            = { s.faces.getD i dFace with
                points := fresh i, nbPointsCur := (fresh i).length, isTracked := true } := by
          show (s.faces.enum.map _).getD i dFace = _
          rw [getD_map_enum _ _ i hi dFace dFace]
          simp [hv, hroi]
        rw [hg]
        exact ⟨rfl, rfl, rfl⟩
      · intro hvr
        have hg := getD_map_enum (fun p =>
              if vis p.1 s.cMo s.angleAppears then
                if roiInside p.1 s.cMo then
                  { p.2 with points := fresh p.1, nbPointsCur := (fresh p.1).length, isTracked := true }
                else { p.2 with isTracked := false }
              else { p.2 with isTracked := false }) s.faces i hi dFace dFace
        by_cases hv : vis i s.cMo s.angleAppears = true
        · have hroi : roiInside i s.cMo = false := by
            cases hro : roiInside i s.cMo
            · rfl
            · rw [Bool.and_eq_false_iff] at hvr
              rcases hvr with h' | h'
              · exact absurd hv (by simp [h'])
              · exact absurd hro (by simp [h'])
          show ((s.faces.enum.map _).getD i dFace).isTracked = false ∧
            ((s.faces.enum.map _).getD i dFace).points = (s.faces.getD i dFace).points
          rw [hg]
          simp [hv, hroi]
        · show ((s.faces.enum.map _).getD i dFace).isTracked = false ∧
            ((s.faces.enum.map _).getD i dFace).points = (s.faces.getD i dFace).points
          rw [hg]
          simp [hv]
  · intro newPts wt angleAt s hp hpost
    simp only [track]
    rw [if_neg hp, hpost, if_pos rfl]

/-- C6, concrete runs: an unconfigured tracker fails `init`; and on the
concrete instance whose invisible face turns visible after the frame,
`track` returns exactly the outcome of re-running `init` on the
post-tracking state. -/
theorem reinit_reruns_init_witness :
    (sNoCfg.modelInitialised = false ∨ sNoCfg.cameraInitialised = false) ∧
    (init opsZ visT roiT fresh2 sNoCfg
       = .error (if sNoCfg.modelInitialised then VpError.cameraNotInitialised
                 else VpError.modelNotInitialised)) ∧
    postR.2 = true ∧
    (track opsZ newPts4 wtOne angle0 visT roiT fresh2 sReinit =
      (match init opsZ visT roiT fresh2 postR.1 with
       | .error e => (postR.1, some e)
       | .ok r => (r.1, none))) :=
  ⟨Or.inl rfl,
   (reinit_reruns_init opsZ visT roiT fresh2).1 sNoCfg (Or.inl rfl),
   postR_flag,
   (reinit_reruns_init opsZ visT roiT fresh2).2.2 newPts4 wtOne angle0 sReinit
     (by decide) postR_flag⟩

/-- C7, concrete run: on the concrete instance's eligible face the
retained points after `postTracking` are exactly those filtered by the
weight threshold. -/
theorem outlier_removal_idempotent_witness :
    0 < s0.faces.length ∧
    eligible (s0.faces.getD 0 dFace) = true ∧
    ((postTracking wtConst angConst s0).1.faces.getD 0 dFace).points
      = (s0.faces.getD 0 dFace).points.filter
          (fun pid => decide (¬ wtConst pid < s0.threshold_outlier)) :=
  ⟨by decide, by decide,
   ((outlier_removal_idempotent opsZ).2.2.2.2 wtConst angConst s0 0 (by decide)).1 (by decide)⟩

/-- C8, concrete runs: the hysteresis step is idempotent at the boundary
value 90 shared by both default thresholds, and `postTracking` applies it
to the concrete instance's stored visibility. -/
theorem visibility_hysteresis_no_flicker_witness :
    ((90 : ℚ) = 90 ∨ (90 : ℚ) = 90) ∧
    visStep 90 90 90 (visStep 90 90 90 true) = visStep 90 90 90 true ∧
    0 < s0.faces.length ∧
    ((postTracking wtConst angConst s0).1.faces.getD 0 dFace).isVisible
      = visStep s0.angleAppears s0.angleDisappears (angConst 0) ((s0.faces.getD 0 dFace).isVisible) :=
  ⟨Or.inl rfl,
   visibility_hysteresis_no_flicker.1 90 90 90 true (Or.inl rfl),
   by decide,
   visibility_hysteresis_no_flicker.2.2 ℤ wtConst angConst s0 0 (by decide)⟩

end MbKlt
